import Mathlib

/-!
Shallow embedding of the book-recommender core in src/app.py: the model
store (popular_df, pt, scores, all_books), the loader
load_model_components, and the recommender recommend.

Modelling conventions:
- The popularity DataFrame popular_df is modelled by PopDF: its rows
  (each carrying the columns the core reads) plus a flag recording
  whether the DataFrame has a Book-Title column (a fresh pd.DataFrame()
  has no columns, so its flag is false).
- The pivot table pt matters to the core only through its row index, a
  list of titles; pt.empty corresponds to the list being empty, and the
  index is assumed label-unique as the data model states (get_loc on a
  unique index returns the position of the single matching label).
- scores is an optional matrix of rational numbers; Python floats are
  modelled by rationals, which is faithful for the comparison-based
  sorting the code performs on non-NaN values.
- pickle.load is modelled by an Option Blob argument to the loader:
  none when deserialization raises, some b when it yields a value of
  shape b.  Dictionary values stored under the keys the loader reads
  are modelled with the kind the rest of the code requires of them.
- The randomness of Series.sample is modelled by an explicit list of
  chosen row positions; theorems quantify over every valid draw
  (distinct in-range positions, sample size min 5 n).
- Python exceptions are modelled with Except: an error value is a
  raised exception, an ok value is a normal return.
-/

/-- One row of the popularity DataFrame, with the columns the core
reads or writes: Book-Title, Book-Author, Image-URL-M, Num-Ratings,
Avg-Rating. -/
structure PopRow where
  title : String
  author : String
  image : String
  numRatings : Int
  avgRating : ℚ
  deriving DecidableEq, Repr

/-- The popularity DataFrame: its rows plus whether a Book-Title column
exists (selecting that column raises KeyError when it does not). -/
structure PopDF where
  hasBookTitle : Bool
  rows : List PopRow
  deriving DecidableEq, Repr

/-- A fresh pd.DataFrame(): no rows and no columns. -/
def PopDF.empty : PopDF := ⟨false, []⟩

/-- The module-level model store: popular_df, pt (its row index),
scores, all_books. -/
@[ext]
structure Store where
  popular : PopDF
  pt : List String
  scores : Option (List (List ℚ))
  allBooks : List String
  deriving DecidableEq, Repr

/-- The initial globals of app.py: empty DataFrames, scores None,
all_books the empty list. -/
def initialStore : Store := ⟨PopDF.empty, [], none, []⟩

/-- A value stored in a deserialized dictionary under one of the keys
the loader reads, carrying the kind the rest of the code requires. -/
inductive PickleVal where
  | pdf (d : PopDF)
  | pivotIndex (p : List String)
  | matrix (m : List (List ℚ))
  deriving DecidableEq, Repr

/-- The shapes the loader distinguishes in the deserialized blob:
a tuple or list of length at least three (only the first three elements
are used), a dictionary, a bare DataFrame, or anything else. -/
inductive Blob where
  | seq (popular : PopDF) (pt : List String) (scores : List (List ℚ))
  | dict (entries : List (String × PickleVal))
  | df (d : PopDF)
  | other
  deriving DecidableEq, Repr

/-- Dictionary lookup: the value stored under key k, if any (dict.get). -/
def dictFind (entries : List (String × PickleVal)) (k : String) :
    Option PickleVal :=
  (entries.find? (fun e => e.1 = k)).map (fun e => e.2)

/-- data.get(k, dflt) where the stored value is a DataFrame. -/
def getPdf (entries : List (String × PickleVal)) (k : String)
    (dflt : PopDF) : PopDF :=
  match dictFind entries k with
  | some (.pdf d) => d
  | _ => dflt

/-- data.get(k, dflt) where the stored value is a pivot table, of which
only the row index matters. -/
def getPivot (entries : List (String × PickleVal)) (k : String)
    (dflt : List String) : List String :=
  match dictFind entries k with
  | some (.pivotIndex p) => p
  | _ => dflt

/-- data.get(k, dflt) where the stored value is a similarity matrix. -/
def getMatrix (entries : List (String × PickleVal)) (k : String)
    (dflt : Option (List (List ℚ))) : Option (List (List ℚ)) :=
  match dictFind entries k with
  | some (.matrix m) => some m
  | _ => dflt

/-- First-occurrence deduplication, the order Series.unique keeps. -/
def dedupFirst : List String → List String
  | [] => []
  | x :: xs => x :: dedupFirst (xs.filter (fun y => y ≠ x))
  termination_by l => l.length
  decreasing_by
    simp only [List.length_cons]
    exact Nat.lt_succ_of_le (List.length_filter_le _ _)

/-- The shape classification of app.py lines 30-40: tuple or list of
length at least 3 takes the first three elements positionally; a dict
reads keys popular_df, pt, scores with the prior artifact as default; a
bare DataFrame becomes popular_df; anything else resets popular_df to
an empty DataFrame.  pt and scores are untouched outside their cases. -/
def classify (s : Store) (b : Blob) : Store :=
  match b with
  | .seq p pv sc => { s with popular := p, pt := pv, scores := some sc }
  | .dict es =>
      { s with
        popular := getPdf es "popular_df" s.popular,
        pt := getPivot es "pt" s.pt,
        scores := getMatrix es "scores" s.scores }
  | .df d => { s with popular := d }
  | .other => { s with popular := PopDF.empty }

/-- The post-load preparation of app.py lines 43-47: all_books is the
pivot row index when pt is non-empty, else the first-occurrence-unique
Book-Title values of popular_df; selecting that column raises KeyError
when popular_df has no Book-Title column. -/
def deriveAllBooks (s : Store) : Except String (List String) :=
  match s.pt with
  | _ :: _ => .ok s.pt
  | [] =>
      if s.popular.hasBookTitle then
        .ok (dedupFirst (s.popular.rows.map (fun r => r.title)))
      else
        .error "KeyError: Book-Title"

/-- The mock fallback rows of app.py lines 57-62: for i in range(1, 51),
Mock Popular Book i, Author i, a placeholder image URL, 1000 + i
ratings, average rating 4.0 + i / 100. -/
def mockRows : List PopRow :=
  (List.range 50).map (fun k =>
    { title := "Mock Popular Book " ++ toString (k + 1),
      author := "Author " ++ toString (k + 1),
      image := "https://placehold.co/80x120/4f46e5/ffffff?text=Book"
                 ++ toString (k + 1),
      numRatings := 1000 + ((k : Int) + 1),
      avgRating := 4 + ((k : ℚ) + 1) / 100 })

/-- The mock DataFrame built in the except block: it has a Book-Title
column and the 50 synthetic rows. -/
def mockPopDF : PopDF := ⟨true, mockRows⟩

/-- The except block of app.py lines 51-64: popular_df becomes the mock
DataFrame and all_books its titles; pt and scores keep whatever value
they had when the exception was raised. -/
def mockFallback (s : Store) : Store :=
  { s with
    popular := mockPopDF,
    allBooks := mockRows.map (fun r => r.title) }

/-- load_model_components of app.py lines 16-64, as a function of the
prior store and the outcome of pickle.load: none means deserialization
raised (missing file or corrupt blob), some b means it produced a value
of shape b.  On success the blob is classified and all_books derived;
any failure falls back to the mock data. -/
def load_model_components (s : Store) (blob : Option Blob) : Store :=
  match blob with
  | none => mockFallback s
  | some b =>
      let s1 := classify s b
      match deriveAllBooks s1 with
      | .ok bs => { s1 with allBooks := bs }
      | .error _ => mockFallback s1

/-- A Python exception raised inside the try block of recommend:
KeyError from get_loc on an absent label, or an out-of-range access
(IndexError) on scores or on the pivot index. -/
inductive PyErr where
  | keyError (k : String)
  | indexError
  deriving DecidableEq, Repr

/-- pt.index.get_loc on a label-unique index: the position of the label,
or KeyError (modelled as none) when absent. -/
def getLoc (k : String) : List String → Option ℕ
  | [] => none
  | a :: l => if a = k then some 0 else (getLoc k l).map (fun i => i + 1)

/-- Python enumerate starting at n: the list of (position, value) pairs. -/
def enumFromN {α : Type} (n : ℕ) : List α → List (ℕ × α)
  | [] => []
  | a :: l => (n, a) :: enumFromN (n + 1) l

/-- The order sorted(key=lambda x: x[1], reverse=True) arranges the
enumerated pairs in: descending score, and, because the sort is stable
and the pairs are enumerated with ascending indices, ties in ascending
original index. -/
def simOrder (a b : ℕ × ℚ) : Prop :=
  b.2 < a.2 ∨ (a.2 = b.2 ∧ a.1 ≤ b.1)

instance : DecidableRel simOrder := fun a b =>
  inferInstanceAs (Decidable (b.2 < a.2 ∨ (a.2 = b.2 ∧ a.1 ≤ b.1)))

instance : IsTotal (ℕ × ℚ) simOrder where
  total a b := by
    rcases lt_trichotomy a.2 b.2 with h | h | h
    · exact Or.inr (Or.inl h)
    · rcases Nat.le_total a.1 b.1 with hn | hn
      · exact Or.inl (Or.inr ⟨h, hn⟩)
      · exact Or.inr (Or.inr ⟨h.symm, hn⟩)
    · exact Or.inl (Or.inl h)

instance : IsTrans (ℕ × ℚ) simOrder where
  trans a b c hab hbc := by
    rcases hab with hab | ⟨hab, hab1⟩
    · rcases hbc with hbc | ⟨hbc, _⟩
      · exact Or.inl (hbc.trans hab)
      · exact Or.inl (hbc ▸ hab)
    · rcases hbc with hbc | ⟨hbc, hbc1⟩
      · exact Or.inl (hab ▸ hbc)
      · exact Or.inr ⟨hab.trans hbc, hab1.trans hbc1⟩

/-- The title-lookup loop of app.py lines 90-94: for each sorted pair,
pt.index[i]; a position past the end of the index raises IndexError. -/
def lookupTitles (pt : List String) : List (ℕ × ℚ) → Except PyErr (List String)
  | [] => .ok []
  | p :: ps =>
      match pt.get? p.1 with
      | none => .error .indexError
      | some t =>
          match lookupTitles pt ps with
          | .ok ts => .ok (t :: ts)
          | .error e => .error e

/-- The try block of recommend, app.py lines 82-96: resolve the title
to its row position (KeyError when absent), read that row of scores
(IndexError when scores has no such row), stably sort the enumerated
row by descending score, drop the first sorted entry and take the next
five, and map each remaining position back to a title. -/
def recommendTry (pt : List String) (scores : List (List ℚ))
    (bookName : String) : Except PyErr (List String) :=
  match getLoc bookName pt with
  | none => .error (.keyError bookName)
  | some index =>
      match scores.get? index with
      | none => .error .indexError
      | some row =>
          lookupTitles pt
            (((List.insertionSort simOrder (enumFromN 0 row)).drop 1).take 5)

/-- The message returned when the model is degraded and popular_df is
empty. -/
def unavailableMsg : String :=
  "Model data unavailable. Please check backend setup."

/-- The message returned from the KeyError handler. -/
def notFoundMsg (bookName : String) : String :=
  "Error: '" ++ bookName ++ "' not found in the trained model's index."

/-- The message returned from the catch-all exception handler. -/
def unexpectedMsg : String :=
  "An unexpected error occurred during recommendation."

/-- popular_df sample(min(5, len)) followed by tolist(), applied to a
draw of row positions: the titles at the drawn positions. -/
def sampleTitles (rows : List PopRow) (pick : List ℕ) : List String :=
  (pick.filterMap (fun i => rows.get? i)).map (fun r => r.title)

/-- The degraded branch of recommend, app.py lines 74-80: with an empty
popular_df a single explanatory message, otherwise a sample of titles;
selecting Book-Title on a column-less DataFrame would raise outside any
handler. -/
def degradedBranch (s : Store) (pick : List ℕ) : Except String (List String) :=
  if s.popular.rows.isEmpty then
    .ok [unavailableMsg]
  else if s.popular.hasBookTitle then
    .ok (sampleTitles s.popular.rows pick)
  else
    .error "KeyError: Book-Title"

/-- recommend of app.py lines 68-102: the degraded branch when pt is
empty or scores is None, else the try block with its two handlers:
KeyError becomes the not-found message, any other exception the
generic message.  pick models the random draw of Series.sample. -/
def recommend (s : Store) (pick : List ℕ) (bookName : String) :
    Except String (List String) :=
  match s.pt, s.scores with
  | [], _ => degradedBranch s pick
  | _ :: _, none => degradedBranch s pick
  | p :: ps, some scoresM =>
      match recommendTry (p :: ps) scoresM bookName with
      | .ok r => .ok r
      | .error (.keyError k) => .ok [notFoundMsg k]
      | .error .indexError => .ok [unexpectedMsg]

/-!
Concrete instances used by the closed theorems below: loaded and
degraded stores, blobs, and dictionary entry lists.
-/

/-- A sample popularity row. -/
def aRow : PopRow :=
  { title := "Some Book", author := "Some Author", image := "img",
    numRatings := 7, avgRating := 4 }

/-- A non-empty popularity DataFrame with a Book-Title column. -/
def dfOne : PopDF := ⟨true, [aRow]⟩

/-- The loaded store of the concrete scenario of C2: seven pivot rows
and the similarity row of title A being
[1.0, 0.9, 0.2, 0.8, 0.1, 0.7, 0.05], index-aligned; mkRat n d is the
rational n / d. -/
def stScenario : Store :=
  { popular := PopDF.empty,
    pt := ["A", "B", "C", "D", "E", "F", "G"],
    scores := some
      [[1, mkRat 9 10, mkRat 2 10, mkRat 8 10, mkRat 1 10, mkRat 7 10,
        mkRat 5 100],
       [0, 0, 0, 0, 0, 0, 0], [0, 0, 0, 0, 0, 0, 0], [0, 0, 0, 0, 0, 0, 0],
       [0, 0, 0, 0, 0, 0, 0], [0, 0, 0, 0, 0, 0, 0], [0, 0, 0, 0, 0, 0, 0]],
    allBooks := ["A", "B", "C", "D", "E", "F", "G"] }

/-- A loaded store whose similarity row for A is not self-maximal: B is
more similar to A than A is to itself. -/
def stNotSelfMax : Store :=
  { popular := PopDF.empty,
    pt := ["A", "B"],
    scores := some [[1, 2], [2, 3]],
    allBooks := ["A", "B"] }

/-- A loaded store with four pivot rows and a tie in the row of A,
used to exercise the ranking theorem. -/
def stRanked : Store :=
  { popular := PopDF.empty,
    pt := ["A", "B", "C", "D"],
    scores := some [[10, 5, 7, 5], [0, 0, 0, 0], [0, 0, 0, 0], [0, 0, 0, 0]],
    allBooks := ["A", "B", "C", "D"] }

/-- A dictionary blob using the key names the spec sentence gives;
the loader reads other key names. -/
def specKeyedEntries : List (String × PickleVal) :=
  [("popular", .pdf dfOne), ("pivot", .pivotIndex ["X"])]

/-- A loaded store with a single-title pivot index, used for the
unknown-title theorem. -/
def stOneTitle : Store :=
  { popular := PopDF.empty, pt := ["B"], scores := some [[1]],
    allBooks := ["B"] }

/-- A loaded store whose scores matrix has no rows at all, so reading
the row of any resolved title raises IndexError. -/
def stNoScoreRows : Store :=
  { popular := PopDF.empty, pt := ["A"], scores := some [],
    allBooks := ["A"] }

/-- A dictionary blob holding only a scores matrix: classification
assigns scores, then the all_books derivation fails. -/
def scoresOnlyBlob : Blob := .dict [("scores", .matrix [[1]])]

/-- A well-formed three-element blob: a valid load input. -/
def seqBlob : Blob := .seq dfOne ["X"] [[1]]

/-- A degraded store with two popularity rows. -/
def stDegraded : Store :=
  { popular := ⟨true,
      [{ title := "P1", author := "a1", image := "i1", numRatings := 2,
         avgRating := 4 },
       { title := "P2", author := "a2", image := "i2", numRatings := 1,
         avgRating := 3 }]⟩,
    pt := [], scores := none, allBooks := ["P1", "P2"] }

/-!
Helper lemmas about the embedded operations.
-/

theorem enumFromN_length {α : Type} (n : ℕ) (l : List α) :
    (enumFromN n l).length = l.length := by
  induction l generalizing n with
  | nil => rfl
  | cons a l ih => simp [enumFromN, ih]

theorem enumFromN_mem {α : Type} {p : ℕ × α} :
    ∀ {n : ℕ} {l : List α}, p ∈ enumFromN n l →
      n ≤ p.1 ∧ l.get? (p.1 - n) = some p.2 := by
  intro n l
  induction l generalizing n with
  | nil => intro h; cases h
  | cons a l ih =>
      intro h
      simp only [enumFromN] at h
      rcases List.mem_cons.mp h with h | h
      · subst h
        exact ⟨Nat.le_refl n, by simp⟩
      · obtain ⟨h1, h2⟩ := ih h
        refine ⟨Nat.le_trans (Nat.le_succ n) h1, ?_⟩
        have hd : p.1 - n = (p.1 - (n + 1)) + 1 := by omega
        rw [hd]
        exact h2

theorem enumFromN_mem_of_get? {α : Type} {l : List α} {j : ℕ} {x : α}
    (h : l.get? j = some x) : ∀ n : ℕ, (n + j, x) ∈ enumFromN n l := by
  induction l generalizing j with
  | nil => cases h
  | cons a l ih =>
      intro n
      cases j with
      | zero =>
          have hx : a = x := Option.some.inj h
          subst hx
          simp only [enumFromN, Nat.add_zero]
          exact List.mem_cons_self _ _
      | succ j =>
          have h' : l.get? j = some x := h
          have hmem := ih h' (n + 1)
          have harith : n + (j + 1) = (n + 1) + j := by omega
          rw [harith]
          simp only [enumFromN]
          exact List.mem_cons_of_mem _ hmem

theorem enumFromN_fst_lower {α : Type} {n : ℕ} {l : List α} {p : ℕ × α}
    (h : p ∈ enumFromN n l) : n ≤ p.1 :=
  (enumFromN_mem h).1

theorem enumFromN_fst_nodup {α : Type} :
    ∀ (n : ℕ) (l : List α), ((enumFromN n l).map Prod.fst).Nodup := by
  intro n l
  induction l generalizing n with
  | nil => simp [enumFromN]
  | cons a l ih =>
      simp only [enumFromN, List.map_cons, List.nodup_cons]
      refine ⟨?_, ih (n + 1)⟩
      intro hmem
      obtain ⟨p, hp, hfst⟩ := List.mem_map.mp hmem
      have := enumFromN_fst_lower hp
      omega

theorem getLoc_eq_none {k : String} :
    ∀ {l : List String}, k ∉ l → getLoc k l = none := by
  intro l
  induction l with
  | nil => intro _; rfl
  | cons a l ih =>
      intro h
      have ha : ¬a = k := fun e => h (e ▸ List.mem_cons_self a l)
      have hk : k ∉ l := fun e => h (List.mem_cons_of_mem a e)
      simp [getLoc, ha, ih hk]

theorem getLoc_get? {k : String} :
    ∀ {l : List String} {i : ℕ}, getLoc k l = some i → l.get? i = some k := by
  intro l
  induction l with
  | nil => intro i h; cases h
  | cons a l ih =>
      intro i h
      simp only [getLoc] at h
      by_cases ha : a = k
      · rw [if_pos ha] at h
        have h0 : 0 = i := Option.some.inj h
        subst h0
        show some a = some k
        rw [ha]
      · rw [if_neg ha] at h
        obtain ⟨j, hj, hji⟩ := Option.map_eq_some'.mp h
        cases i with
        | zero => omega
        | succ i =>
            have hj' : j = i := by omega
            subst hj'
            exact ih hj

theorem lookupTitles_ok {pt : List String} :
    ∀ {ps : List (ℕ × ℚ)}, (∀ p ∈ ps, p.1 < pt.length) →
      lookupTitles pt ps = .ok (ps.map (fun p => pt.getD p.1 "")) := by
  intro ps
  induction ps with
  | nil => intro _; rfl
  | cons p ps ih =>
      intro h
      have hp : p.1 < pt.length := h p (List.mem_cons_self p ps)
      have hget : pt.get? p.1 = some (pt.get ⟨p.1, hp⟩) := List.get?_eq_get hp
      have hrest := ih (fun q hq => h q (List.mem_cons_of_mem p hq))
      have hgetD : pt.getD p.1 "" = pt.get ⟨p.1, hp⟩ := by
        rw [List.getD_eq_getD_get?, hget]; rfl
      simp only [lookupTitles, hget, hrest, List.map_cons, hgetD]

theorem nodup_get?_inj {l : List String} (hnd : l.Nodup) {i j : ℕ}
    {x : String} (hi : l.get? i = some x) (hj : l.get? j = some x) :
    i = j := by
  obtain ⟨hi', ei⟩ := List.get?_eq_some.mp hi
  obtain ⟨hj', ej⟩ := List.get?_eq_some.mp hj
  have hinj := List.nodup_iff_injective_get.mp hnd
  have heq : (⟨i, hi'⟩ : Fin l.length) = ⟨j, hj'⟩ := hinj (ei.trans ej.symm)
  exact congrArg Fin.val heq

theorem filterMap_get?_length {α : Type} (rows : List α) :
    ∀ pick : List ℕ, (∀ j ∈ pick, j < rows.length) →
      (pick.filterMap (fun i => rows.get? i)).length = pick.length := by
  intro pick
  induction pick with
  | nil => intro _; rfl
  | cons j l ih =>
      intro h
      have hj : j < rows.length := h j (List.mem_cons_self j l)
      have hget : rows.get? j = some (rows.get ⟨j, hj⟩) := List.get?_eq_get hj
      simp only [List.filterMap_cons, hget, List.length_cons]
      rw [ih (fun q hq => h q (List.mem_cons_of_mem j hq))]

theorem recommend_loaded_eq (s : Store) (pick : List ℕ) (bookName : String)
    (scoresM : List (List ℚ)) (hpt : s.pt ≠ []) (hsc : s.scores = some scoresM) :
    recommend s pick bookName =
      match recommendTry s.pt scoresM bookName with
      | .ok r => .ok r
      | .error (.keyError k) => .ok [notFoundMsg k]
      | .error .indexError => .ok [unexpectedMsg] := by
  obtain ⟨p, ps, hp⟩ := List.exists_cons_of_ne_nil hpt
  rw [recommend, hp, hsc]

theorem recommend_degraded_eq (s : Store) (pick : List ℕ) (bookName : String)
    (hdeg : s.pt = [] ∨ s.scores = none) :
    recommend s pick bookName = degradedBranch s pick := by
  rcases hdeg with h | h
  · rw [recommend, h]
  · cases hpt : s.pt with
    | nil => rw [recommend, hpt]
    | cons p ps => rw [recommend, hpt, h]

theorem classify_allBooks (s : Store) (b : Blob) :
    (classify s b).allBooks = s.allBooks := by
  cases b <;> rfl

theorem classify_allBooks_irrel (s : Store) (b : Blob) (x : List String) :
    classify { s with allBooks := x } b = { classify s b with allBooks := x } := by
  cases b <;> rfl

theorem getPdf_idem (es : List (String × PickleVal)) (k : String) (v : PopDF) :
    getPdf es k (getPdf es k v) = getPdf es k v := by
  unfold getPdf
  cases h : dictFind es k with
  | none => rfl
  | some val => cases val <;> rfl

theorem getPivot_idem (es : List (String × PickleVal)) (k : String)
    (v : List String) :
    getPivot es k (getPivot es k v) = getPivot es k v := by
  unfold getPivot
  cases h : dictFind es k with
  | none => rfl
  | some val => cases val <;> rfl

theorem getMatrix_idem (es : List (String × PickleVal)) (k : String)
    (v : Option (List (List ℚ))) :
    getMatrix es k (getMatrix es k v) = getMatrix es k v := by
  unfold getMatrix
  cases h : dictFind es k with
  | none => rfl
  | some val => cases val <;> rfl

theorem classify_idem (s : Store) (b : Blob) :
    classify (classify s b) b = classify s b := by
  cases b with
  | seq p pv sc => rfl
  | df d => rfl
  | other => rfl
  | dict es =>
      apply Store.ext <;>
        simp [classify, getPdf_idem, getPivot_idem, getMatrix_idem]

theorem deriveAllBooks_allBooks_irrel (s : Store) (x : List String) :
    deriveAllBooks { s with allBooks := x } = deriveAllBooks s := rfl

/-!
The claims.
-/

/-- C2: in the loaded state with pivot rows A..G and the similarity row
of A being [1.0, 0.9, 0.2, 0.8, 0.1, 0.7, 0.05] index-aligned,
recommend of A returns exactly [B, D, F, C, E]. -/
theorem recommend_concrete_scenario :
    recommend stScenario [] "A" = .ok ["B", "D", "F", "C", "E"] := by rfl

/-- C3 counterexample: a dictionary blob whose keys are the names the
claim gives, popular and pivot, holding a non-empty popularity table
and a non-empty pivot index; classification leaves the whole store at
its prior value, so neither key populates anything. -/
theorem classify_spec_key_names_cex :
    dictFind specKeyedEntries "popular" = some (.pdf dfOne) ∧
    dictFind specKeyedEntries "pivot" = some (.pivotIndex ["X"]) ∧
    classify initialStore (.dict specKeyedEntries) = initialStore ∧
    dfOne ≠ PopDF.empty := by
  refine ⟨rfl, rfl, by decide, by decide⟩

/-- C3 (amended): on a keyed mapping the loader reads the optional keys
popular_df, pt and scores to populate the popularity table, the pivot
and the similarity matrix, and any absent key leaves the corresponding
artifact at its prior value. -/
theorem classify_dict_key_reads (s : Store) (es : List (String × PickleVal)) :
    (dictFind es "popular_df" = none →
      (classify s (.dict es)).popular = s.popular) ∧
    (dictFind es "pt" = none → (classify s (.dict es)).pt = s.pt) ∧
    (dictFind es "scores" = none → (classify s (.dict es)).scores = s.scores) ∧
    (∀ d, dictFind es "popular_df" = some (.pdf d) →
      (classify s (.dict es)).popular = d) ∧
    (∀ p, dictFind es "pt" = some (.pivotIndex p) →
      (classify s (.dict es)).pt = p) ∧
    (∀ m, dictFind es "scores" = some (.matrix m) →
      (classify s (.dict es)).scores = some m) := by
  refine ⟨?_, ?_, ?_, ?_, ?_, ?_⟩
  · intro h
    show getPdf es "popular_df" s.popular = s.popular
    rw [getPdf, h]
  · intro h
    show getPivot es "pt" s.pt = s.pt
    rw [getPivot, h]
  · intro h
    show getMatrix es "scores" s.scores = s.scores
    rw [getMatrix, h]
  · intro d h
    show getPdf es "popular_df" s.popular = d
    rw [getPdf, h]
  · intro p h
    show getPivot es "pt" s.pt = p
    rw [getPivot, h]
  · intro m h
    show getMatrix es "scores" s.scores = some m
    rw [getMatrix, h]

/-- C3 witness: a dictionary holding only a scores matrix leaves the
popularity table at its prior value and sets the similarity matrix. -/
theorem classify_dict_key_reads_witness :
    (classify initialStore (.dict [("scores", .matrix [[1]])])).popular
        = initialStore.popular ∧
    (classify initialStore (.dict [("scores", .matrix [[1]])])).scores
        = some [[1]] :=
  ⟨(classify_dict_key_reads initialStore _).1 rfl,
   (classify_dict_key_reads initialStore _).2.2.2.2.2 [[1]] rfl⟩

/-- C4: in the loaded state, a title absent from the pivot row index
makes recommend return a single-element list whose one string mentions
the title; the KeyError is handled, not propagated. -/
theorem recommend_unknown_title (s : Store) (pick : List ℕ) (t : String)
    (scoresM : List (List ℚ)) (hpt : s.pt ≠ []) (hsc : s.scores = some scoresM)
    (hmem : t ∉ s.pt) :
    recommend s pick t = .ok [notFoundMsg t] ∧
    ∃ pre suf, notFoundMsg t = pre ++ t ++ suf := by
  have hloc : getLoc t s.pt = none := getLoc_eq_none hmem
  have htry : recommendTry s.pt scoresM t = .error (.keyError t) := by
    rw [recommendTry, hloc]
  rw [recommend_loaded_eq s pick t scoresM hpt hsc, htry]
  exact ⟨rfl, "Error: '", "' not found in the trained model's index.", rfl⟩

/-- C4 witness: the unknown-title result at a concrete loaded store. -/
theorem recommend_unknown_title_witness :
    recommend stOneTitle [] "A" = .ok [notFoundMsg "A"] ∧
    ∃ pre suf, notFoundMsg "A" = pre ++ "A" ++ suf :=
  recommend_unknown_title stOneTitle [] "A" [[1]] (by decide) rfl (by decide)

/-- C5: in the loaded state, an unexpected failure inside the
recommendation computation (any raised exception other than the
KeyError of an absent title, such as an out-of-range access on the
scores matrix or the pivot index) is caught and converted into a
single-element explanatory list, never propagated. -/
theorem recommend_unexpected_caught (s : Store) (pick : List ℕ) (t : String)
    (scoresM : List (List ℚ)) (hpt : s.pt ≠ []) (hsc : s.scores = some scoresM)
    (herr : recommendTry s.pt scoresM t = .error .indexError) :
    recommend s pick t = .ok [unexpectedMsg] := by
  rw [recommend_loaded_eq s pick t scoresM hpt hsc, herr]

/-- C5 witness: a loaded store whose scores matrix has no rows, so
reading the row of the resolved title fails; recommend still returns
the single generic message. -/
theorem recommend_unexpected_caught_witness :
    recommend stNoScoreRows [] "A" = .ok [unexpectedMsg] :=
  recommend_unexpected_caught stNoScoreRows [] "A" [] (by decide) rfl rfl

/-- C9: in the degraded state with an empty popularity table, recommend
returns exactly one explanatory string and raises nothing. -/
theorem recommend_degraded_empty (s : Store) (pick : List ℕ) (t : String)
    (hdeg : s.pt = [] ∨ s.scores = none) (hrows : s.popular.rows = []) :
    recommend s pick t = .ok [unavailableMsg] := by
  rw [recommend_degraded_eq s pick t hdeg, degradedBranch, hrows]
  rfl

/-- C9 witness: the initial store is degraded with an empty popularity
table. -/
theorem recommend_degraded_empty_witness :
    recommend initialStore [] "Anything" = .ok [unavailableMsg] :=
  recommend_degraded_empty initialStore [] "Anything" (Or.inl rfl) rfl

/-- C6 counterexample: a keyed blob holding only a scores matrix.
Classification assigns the matrix, then the all_books derivation fails
and the mock fallback runs (popular_df becomes the mock table), yet the
similarity matrix is not left unset: it keeps the assigned value. -/
theorem load_shape_error_keeps_scores_cex :
    (load_model_components initialStore (some scoresOnlyBlob)).popular
        = mockPopDF ∧
    (load_model_components initialStore (some scoresOnlyBlob)).scores
        = some [[1]] ∧
    some [[(1 : ℚ)]] ≠ (none : Option (List (List ℚ))) := by
  refine ⟨by rfl, by rfl, by simp⟩

/-- C6 (amended): when pickle deserialization itself fails (missing
file or corrupt blob), loading from the initial state populates the
popularity table with exactly 50 synthetic entries titled Mock Popular
Book 1 through Mock Popular Book 50 in order, with strictly increasing
Num-Ratings, leaves the pivot and the similarity matrix at their prior
empty and unset initial values, and sets all_books to the 50 synthetic
titles; when the failure is instead a shape error after partial
classification, the pivot and the matrix keep their values at the
point of failure. -/
theorem load_deserialize_failure_mock_state :
    (load_model_components initialStore none).popular.rows.length = 50 ∧
    (load_model_components initialStore none).popular.rows.map
        (fun r => r.title)
      = (List.range 50).map (fun k => "Mock Popular Book " ++ toString (k + 1)) ∧
    List.Pairwise (fun a b : Int => a < b)
      ((load_model_components initialStore none).popular.rows.map
        (fun r => r.numRatings)) ∧
    (load_model_components initialStore none).pt = [] ∧
    (load_model_components initialStore none).scores = none ∧
    (load_model_components initialStore none).allBooks
      = (load_model_components initialStore none).popular.rows.map
          (fun r => r.title) := by
  refine ⟨by rfl, by rfl, by decide, rfl, rfl, by rfl⟩

/-- C7: loading the same valid blob twice in a row produces the same
store state as loading it once; validity means the all_books
derivation succeeds on the classified blob. -/
theorem load_model_components_idempotent (s : Store) (b : Blob)
    (bs : List String) (h : deriveAllBooks (classify s b) = .ok bs) :
    load_model_components (load_model_components s (some b)) (some b)
      = load_model_components s (some b) := by
  have h1 : load_model_components s (some b)
      = { classify s b with allBooks := bs } := by
    simp only [load_model_components, h]
  rw [h1]
  have h2 : classify { classify s b with allBooks := bs } b
      = { classify s b with allBooks := bs } := by
    rw [classify_allBooks_irrel, classify_idem]
  have h3 : deriveAllBooks { classify s b with allBooks := bs } = .ok bs := by
    rw [deriveAllBooks_allBooks_irrel, h]
  simp only [load_model_components, h2, h3]

/-- C7 witness: loading a concrete well-formed three-element blob twice
equals loading it once. -/
theorem load_model_components_idempotent_witness :
    load_model_components (load_model_components initialStore (some seqBlob))
        (some seqBlob)
      = load_model_components initialStore (some seqBlob) :=
  load_model_components_idempotent initialStore seqBlob ["X"] rfl

/-- C8: in the degraded state with a non-empty popularity table,
recommend returns, for any input title and any valid sample draw,
between 1 and 5 titles, each a title of the popularity table. -/
theorem recommend_degraded_nonempty_sample (s : Store) (pick : List ℕ)
    (t : String)
    (hdeg : s.pt = [] ∨ s.scores = none)
    (hrows : s.popular.rows ≠ [])
    (hcol : s.popular.hasBookTitle = true)
    (hlen : pick.length = min 5 s.popular.rows.length)
    (hmem : ∀ j ∈ pick, j < s.popular.rows.length)
    (_hnd : pick.Nodup) :
    ∃ res, recommend s pick t = .ok res ∧
      1 ≤ res.length ∧ res.length ≤ 5 ∧
      ∀ x ∈ res, x ∈ s.popular.rows.map (fun r => r.title) := by
  have hie : s.popular.rows.isEmpty = false := by
    cases h : s.popular.rows with
    | nil => exact absurd h hrows
    | cons a l => rfl
  have hlen' : (sampleTitles s.popular.rows pick).length = pick.length := by
    unfold sampleTitles
    rw [List.length_map]
    exact filterMap_get?_length s.popular.rows pick hmem
  refine ⟨sampleTitles s.popular.rows pick, ?_, ?_, ?_, ?_⟩
  · rw [recommend_degraded_eq s pick t hdeg, degradedBranch, hie, hcol]
    rfl
  · rw [hlen', hlen]
    have hpos : 0 < s.popular.rows.length := List.length_pos.mpr hrows
    exact Nat.le_min.mpr ⟨by omega, hpos⟩
  · rw [hlen', hlen]
    exact Nat.min_le_left 5 _
  · intro x hx
    unfold sampleTitles at hx
    obtain ⟨r, hr, hrt⟩ := List.mem_map.mp hx
    obtain ⟨j, hj, hjr⟩ := List.mem_filterMap.mp hr
    exact List.mem_map.mpr ⟨r, List.get?_mem hjr, hrt⟩

/-- C8 witness: the two-row degraded store with the draw of both
positions yields two titles from the table. -/
theorem recommend_degraded_nonempty_sample_witness :
    ∃ res, recommend stDegraded [0, 1] "Anything" = .ok res ∧
      1 ≤ res.length ∧ res.length ≤ 5 ∧
      ∀ x ∈ res, x ∈ stDegraded.popular.rows.map (fun r => r.title) :=
  recommend_degraded_nonempty_sample stDegraded [0, 1] "Anything"
    (Or.inl rfl) (by decide) rfl (by decide) (by decide) (by decide)

/-- C10: when a blob deserializes but classification leaves the pivot
empty and the popularity table without a Book-Title column, the
all_books derivation fails and the loader ends in the mock fallback
state: the 50 synthetic entries as the popularity table and their
titles as all_books, not the deserialized artifacts. -/
theorem load_failed_derivation_mock (b : Blob)
    (hpt : (classify initialStore b).pt = [])
    (hcol : (classify initialStore b).popular.hasBookTitle = false) :
    (load_model_components initialStore (some b)).popular = mockPopDF ∧
    (load_model_components initialStore (some b)).popular.rows.length = 50 ∧
    (load_model_components initialStore (some b)).allBooks
      = mockRows.map (fun r => r.title) := by
  have hd : deriveAllBooks (classify initialStore b)
      = .error "KeyError: Book-Title" := by
    rw [deriveAllBooks, hpt, hcol]
    rfl
  have hload : load_model_components initialStore (some b)
      = mockFallback (classify initialStore b) := by
    simp only [load_model_components, hd]
  rw [hload]
  exact ⟨rfl, by rfl, rfl⟩

/-- C10 witness: the empty dictionary blob deserializes but leaves
pivot and popularity empty, so the loader falls back to the mock
state. -/
theorem load_failed_derivation_mock_witness :
    (load_model_components initialStore (some (.dict []))).popular
        = mockPopDF ∧
    (load_model_components initialStore (some (.dict []))).popular.rows.length
        = 50 ∧
    (load_model_components initialStore (some (.dict []))).allBooks
      = mockRows.map (fun r => r.title) :=
  load_failed_derivation_mock (.dict []) rfl rfl

/-- C1 counterexample: a loaded store (pivot non-empty, scores present)
whose similarity row for A is not self-maximal; A is in the pivot index
yet recommend returns a list containing A itself, so the claim that no
returned title equals the query fails on the code. -/
theorem recommend_returns_query_itself_cex :
    getLoc "A" stNotSelfMax.pt = some 0 ∧
    stNotSelfMax.scores = some [[1, 2], [2, 3]] ∧
    recommend stNotSelfMax [] "A" = .ok ["A"] := by
  refine ⟨rfl, rfl, by rfl⟩

/-- C1 (amended): in the loaded state, for a title t of the pivot row
index whose self-similarity score is strictly greater than every other
score of its row, recommend returns at most 5 titles, none equal to t,
all members of all_books (the pivot index in the loaded state), and
the result is the title image of a list of genuine (position, score)
pairs of the row for t that is sorted by descending score with ties
broken by ascending original position. -/
theorem recommend_loaded_ranked (s : Store) (pick : List ℕ) (t : String)
    (i : ℕ) (scoresM : List (List ℚ)) (row : List ℚ)
    (hsc : s.scores = some scoresM)
    (hnd : s.pt.Nodup)
    (hloc : getLoc t s.pt = some i)
    (hrow : scoresM.get? i = some row)
    (hlen : row.length = s.pt.length)
    (hall : s.allBooks = s.pt)
    (hself : ∀ j, j < row.length → j ≠ i → row.getD j 0 < row.getD i 0) :
    ∃ res, recommend s pick t = .ok res ∧
      res.length ≤ 5 ∧
      t ∉ res ∧
      (∀ x ∈ res, x ∈ s.allBooks) ∧
      ∃ ranked : List (ℕ × ℚ),
        res = ranked.map (fun p => s.pt.getD p.1 "") ∧
        (∀ p ∈ ranked, p.1 < s.pt.length ∧ p.1 ≠ i ∧
          row.get? p.1 = some p.2) ∧
        List.Sorted simOrder ranked ∧
        (ranked.map Prod.fst).Nodup := by
  have hti : s.pt.get? i = some t := getLoc_get? hloc
  have hilt : i < s.pt.length := (List.get?_eq_some.mp hti).1
  have hirow : i < row.length := hlen ▸ hilt
  have hpt_ne : s.pt ≠ [] := by
    intro h
    rw [h] at hloc
    exact Option.noConfusion hloc
  have hperm : (List.insertionSort simOrder (enumFromN 0 row)).Perm
      (enumFromN 0 row) := List.perm_insertionSort _ _
  have hsorted : List.Sorted simOrder
      (List.insertionSort simOrder (enumFromN 0 row)) :=
    List.sorted_insertionSort _ _
  have hfstnd : ((List.insertionSort simOrder (enumFromN 0 row)).map
      Prod.fst).Nodup :=
    (hperm.map Prod.fst).nodup_iff.mpr (enumFromN_fst_nodup 0 row)
  have hmemE : ∀ p : ℕ × ℚ,
      p ∈ List.insertionSort simOrder (enumFromN 0 row) →
      row.get? p.1 = some p.2 := by
    intro p hp
    have h := (enumFromN_mem (hperm.mem_iff.mp hp)).2
    simpa using h
  have hqi : row.get? i = some (row.get ⟨i, hirow⟩) := List.get?_eq_get hirow
  have hselfmem : (i, row.get ⟨i, hirow⟩)
      ∈ List.insertionSort simOrder (enumFromN 0 row) := by
    have h := enumFromN_mem_of_get? hqi 0
    have h0 : (0 + i, row.get ⟨i, hirow⟩) = (i, row.get ⟨i, hirow⟩) := by
      simp
    exact hperm.mem_iff.mpr (h0 ▸ h)
  have hgetDi : row.getD i 0 = row.get ⟨i, hirow⟩ := List.getD_eq_get row 0 hirow
  cases hT : List.insertionSort simOrder (enumFromN 0 row) with
  | nil =>
      rw [hT] at hselfmem
      cases hselfmem
  | cons hd tl =>
      rw [hT] at hsorted hfstnd hselfmem hmemE
      have hhd : hd = (i, row.get ⟨i, hirow⟩) := by
        by_contra hne
        have hmemtl : (i, row.get ⟨i, hirow⟩) ∈ tl := by
          rcases List.mem_cons.mp hselfmem with h | h
          · exact absurd h.symm hne
          · exact h
        have hhdrow : row.get? hd.1 = some hd.2 :=
          hmemE hd (List.mem_cons_self hd tl)
        have hhdlt : hd.1 < row.length := (List.get?_eq_some.mp hhdrow).1
        have hhdne : hd.1 ≠ i := by
          intro he
          apply hne
          have hsame : row.get? hd.1 = some (row.get ⟨i, hirow⟩) := by
            rw [he, hqi]
          have h2 : hd.2 = row.get ⟨i, hirow⟩ :=
            Option.some.inj (hhdrow.symm.trans hsame)
          exact Prod.ext he h2
        have hlt : hd.2 < row.get ⟨i, hirow⟩ := by
          have h := hself hd.1 hhdlt hhdne
          rw [hgetDi] at h
          have hgd : row.getD hd.1 0 = hd.2 := by
            rw [List.getD_eq_getD_get?, hhdrow]
            rfl
          rwa [hgd] at h
        have hord : simOrder hd (i, row.get ⟨i, hirow⟩) :=
          (List.sorted_cons.mp hsorted).1 _ hmemtl
        simp only [simOrder] at hord
        rcases hord with hcase | ⟨hcase, _⟩
        · exact absurd hcase (not_lt.mpr (le_of_lt hlt))
        · exact absurd hcase (ne_of_lt hlt)
      have hinotl : i ∉ tl.map Prod.fst := by
        rw [List.map_cons] at hfstnd
        have hn := List.nodup_cons.mp hfstnd
        have h1 : hd.1 = i := by rw [hhd]
        exact h1 ▸ hn.1
      have hrankmem : ∀ p ∈ tl.take 5, p.1 < s.pt.length ∧ p.1 ≠ i ∧
          row.get? p.1 = some p.2 := by
        intro p hp
        have hptl : p ∈ tl := List.take_subset 5 tl hp
        have hprow := hmemE p (List.mem_cons_of_mem hd hptl)
        have hplt : p.1 < row.length := (List.get?_eq_some.mp hprow).1
        have hpne : p.1 ≠ i := by
          intro he
          apply hinotl
          rw [← he]
          exact List.mem_map.mpr ⟨p, hptl, rfl⟩
        exact ⟨hlen ▸ hplt, hpne, hprow⟩
      have hrsorted : List.Sorted simOrder (tl.take 5) :=
        ((List.sorted_cons.mp hsorted).2).sublist (List.take_sublist 5 tl)
      have hrnodup : ((tl.take 5).map Prod.fst).Nodup := by
        rw [List.map_cons] at hfstnd
        have hn := (List.nodup_cons.mp hfstnd).2
        exact hn.sublist ((List.take_sublist 5 tl).map Prod.fst)
      have hlookup : lookupTitles s.pt (tl.take 5)
          = .ok ((tl.take 5).map (fun p => s.pt.getD p.1 "")) :=
        lookupTitles_ok (fun p hp => (hrankmem p hp).1)
      have step1 : recommendTry s.pt scoresM t
          = match scoresM.get? i with
            | none => .error .indexError
            | some row =>
                lookupTitles s.pt
                  (((List.insertionSort simOrder (enumFromN 0 row)).drop
                    1).take 5) := by
        rw [recommendTry, hloc]
      have htry : recommendTry s.pt scoresM t
          = .ok ((tl.take 5).map (fun p => s.pt.getD p.1 "")) := by
        rw [step1, hrow]
        show lookupTitles s.pt
            (((List.insertionSort simOrder (enumFromN 0 row)).drop 1).take 5)
          = _
        rw [hT]
        exact hlookup
      refine ⟨(tl.take 5).map (fun p => s.pt.getD p.1 ""), ?_, ?_, ?_, ?_,
        tl.take 5, rfl, hrankmem, hrsorted, hrnodup⟩
      · rw [recommend_loaded_eq s pick t scoresM hpt_ne hsc, htry]
      · rw [List.length_map]
        exact List.length_take_le 5 tl
      · intro hmem
        obtain ⟨p, hp, hpt'⟩ := List.mem_map.mp hmem
        obtain ⟨hplt, hpne, _⟩ := hrankmem p hp
        have hget : s.pt.get? p.1 = some (s.pt.getD p.1 "") := by
          rw [List.getD_eq_get s.pt "" hplt]
          exact List.get?_eq_get hplt
        rw [hpt'] at hget
        exact hpne (nodup_get?_inj hnd hget hti)
      · intro x hx
        obtain ⟨p, hp, hpx⟩ := List.mem_map.mp hx
        obtain ⟨hplt, _, _⟩ := hrankmem p hp
        rw [hall, ← hpx, List.getD_eq_get s.pt "" hplt]
        exact List.get_mem s.pt p.1 hplt

/-- C1 witness: the four-title store with a tie in the row of A; the
two tied candidates appear in ascending index order after the higher
score, A itself is dropped, and all hypotheses hold concretely. -/
theorem recommend_loaded_ranked_witness :
    ∃ res, recommend stRanked [] "A" = .ok res ∧
      res.length ≤ 5 ∧
      "A" ∉ res ∧
      (∀ x ∈ res, x ∈ stRanked.allBooks) ∧
      ∃ ranked : List (ℕ × ℚ),
        res = ranked.map (fun p => stRanked.pt.getD p.1 "") ∧
        (∀ p ∈ ranked, p.1 < stRanked.pt.length ∧ p.1 ≠ 0 ∧
          ([10, 5, 7, 5] : List ℚ).get? p.1 = some p.2) ∧
        List.Sorted simOrder ranked ∧
        (ranked.map Prod.fst).Nodup :=
  recommend_loaded_ranked stRanked [] "A" 0 [[10, 5, 7, 5],
      [0, 0, 0, 0], [0, 0, 0, 0], [0, 0, 0, 0]] [10, 5, 7, 5]
    rfl (by decide) rfl rfl (by decide) rfl (by decide)
